import Mathlib

/-!
# Verification of the Event Pass reservation core

Shallow embedding of `src/web/module4-event-pass/src/data/events.ts` and
`src/web/module4-event-pass/src/actions/eventActions.ts`.

The TypeScript module keeps a global mutable array `events : Event[]`; every
data function reads and possibly mutates that array. We embed this as explicit
state passing: each operation takes the current store (a `List Event`) and
returns its result together with the new store. Calls to `new Date().toISOString()`
and `generateId()` are embedded as explicit `now` / `newId` string parameters.
JavaScript numbers holding counts and capacities are embedded as `Int`, so the
non-negativity side of the invariant is a real statement.

JavaScript executes each function body between `await` points atomically
(run-to-completion); in `registerForEvent` the whole read-check-write happens
after the single `await delay(300)`, so concurrent calls serialize into some
sequential order of whole calls. Sequences of calls are therefore modelled as
sequential composition.
-/

namespace EventPass

/-- The `Event` entity, from the seed data and field accesses in
`src/data/events.ts` (the declaring file `src/types/event.ts` is not in the
sources; the shape is reconstructed from every field the module reads and
writes). `endDate` and `imageUrl` are optional in the create action
(`formValues.endDate || undefined`). -/
structure Event where
  id : String
  title : String
  description : String
  category : String
  status : String
  date : String
  endDate : Option String
  location : String
  address : String
  capacity : Int
  registeredCount : Int
  price : Int
  imageUrl : Option String
  organizerName : String
  organizerEmail : String
  tags : List String
  createdAt : String
  updatedAt : String
deriving Repr, DecidableEq

/-- `getEventById` (events.ts lines 228-231):
`events.find((event) => event.id === id) ?? null`. A pure read; the global
store is not mutated. -/
def getEventById (events : List Event) (id : String) : Option Event :=
  events.find? (fun event => event.id == id)

/-- Input type of `createEvent`:
`Omit<Event, 'id' | 'registeredCount' | 'createdAt' | 'updatedAt'>`.
The omitted fields cannot be supplied by the caller; `createEvent` fills
them itself. -/
structure CreateEventData where
  title : String
  description : String
  category : String
  status : String
  date : String
  endDate : Option String
  location : String
  address : String
  capacity : Int
  price : Int
  imageUrl : Option String
  organizerName : String
  organizerEmail : String
  tags : List String
deriving Repr, DecidableEq

/-- `createEvent` (events.ts lines 239-255): build the new event from `data`
with `id := generateId()`, `registeredCount := 0`,
`createdAt := updatedAt := now`, and push it at the end of the store. -/
def createEvent (events : List Event) (data : CreateEventData)
    (newId now : String) : Event × List Event :=
  let newEvent : Event :=
    { id := newId
      title := data.title
      description := data.description
      category := data.category
      status := data.status
      date := data.date
      endDate := data.endDate
      location := data.location
      address := data.address
      capacity := data.capacity
      registeredCount := 0
      price := data.price
      imageUrl := data.imageUrl
      organizerName := data.organizerName
      organizerEmail := data.organizerEmail
      tags := data.tags
      createdAt := now
      updatedAt := now }
  (newEvent, events ++ [newEvent])

/-- Input type of `updateEvent`: `Partial<Omit<Event, 'id' | 'createdAt'>>`.
Every field is optional; a present field replaces the stored one. The type
also admits `registeredCount` (the action layer never sends it) and
`updatedAt`, but the merge in `updateEvent` overwrites `updatedAt` with the
current time regardless, so a supplied `updatedAt` is never observable and is
not carried here. -/
structure UpdateEventData where
  title : Option String := none
  description : Option String := none
  category : Option String := none
  status : Option String := none
  date : Option String := none
  endDate : Option String := none
  location : Option String := none
  address : Option String := none
  capacity : Option Int := none
  registeredCount : Option Int := none
  price : Option Int := none
  imageUrl : Option String := none
  organizerName : Option String := none
  organizerEmail : Option String := none
  tags : Option (List String) := none
deriving Repr, DecidableEq

/-- The merge `{ ...events[index], ...data, updatedAt: new Date().toISOString() }`
from `updateEvent` (events.ts lines 273-277): present fields of `data` win,
and `updatedAt` is always set to the current time. -/
def applyUpdate (e : Event) (data : UpdateEventData) (now : String) : Event :=
  { e with
    title := data.title.getD e.title
    description := data.description.getD e.description
    category := data.category.getD e.category
    status := data.status.getD e.status
    date := data.date.getD e.date
    endDate := match data.endDate with | some v => some v | none => e.endDate
    location := data.location.getD e.location
    address := data.address.getD e.address
    capacity := data.capacity.getD e.capacity
    registeredCount := data.registeredCount.getD e.registeredCount
    price := data.price.getD e.price
    imageUrl := match data.imageUrl with | some v => some v | none => e.imageUrl
    organizerName := data.organizerName.getD e.organizerName
    organizerEmail := data.organizerEmail.getD e.organizerEmail
    tags := data.tags.getD e.tags
    updatedAt := now }

/-- `updateEvent` (events.ts lines 264-280): locate the first event with the
given id (`findIndex`); if absent return `null` and leave the store unchanged;
otherwise overwrite that slot with the merged record and return it. -/
def updateEvent (events : List Event) (id : String) (data : UpdateEventData)
    (now : String) : Option Event × List Event :=
  match events with
  | [] => (none, [])
  | e :: rest =>
    if e.id == id then
      let merged := applyUpdate e data now
      (some merged, merged :: rest)
    else
      let tail := updateEvent rest id data now
      (tail.1, e :: tail.2)

/-- `registerForEvent` (events.ts lines 304-316): find the event; return
`null` when it is absent, when `registeredCount >= capacity` (checked first),
or when `status !== 'publicado'`; otherwise increment `registeredCount` in
place and stamp `updatedAt`. -/
def registerForEvent (events : List Event) (id : String) (now : String) :
    Option Event × List Event :=
  match events with
  | [] => (none, [])
  | e :: rest =>
    if e.id == id then
      if e.registeredCount ≥ e.capacity then (none, e :: rest)
      else if e.status ≠ "publicado" then (none, e :: rest)
      else
        let bumped : Event :=
          { e with registeredCount := e.registeredCount + 1, updatedAt := now }
        (some bumped, bumped :: rest)
    else
      let tail := registerForEvent rest id now
      (tail.1, e :: tail.2)

/-- The successful outcome of one registration: `registeredCount += 1`,
`updatedAt` stamped, everything else kept. -/
def bump (e : Event) (now : String) : Event :=
  { e with registeredCount := e.registeredCount + 1, updatedAt := now }

/-! ## The server-action layer (`src/actions/eventActions.ts`)

The actions validate form input with `createEventSchema` from
`src/types/event.ts`, a file that is not among the sources, call the data
layer, and wrap the outcome in a `FormState`. `revalidatePath` only refreshes
the framework cache and has no effect on the store, so it is not modelled. -/

/-- The serializable state returned by every server action. The source type
also carries optional `errors` (field to messages map) and `values`
(raw form echo); here `errors` keeps just the offending field names, which is
all the claims need, and `values` is dropped. -/
structure FormState where
  success : Bool
  message : String
  data : Option Event := none
  errors : List String := []
deriving Repr, DecidableEq

/-- Modelled from the spec: the status enumeration of the missing
`src/types/event.ts`. The spec's lifecycle Draft / Open / Closed corresponds
to the source strings "borrador" / "publicado" / "cancelado"; the seed data
and the form's status selector exhibit "borrador" and "publicado". -/
def validStatus (s : String) : Bool :=
  s == "borrador" || s == "publicado" || s == "cancelado"

/-- Modelled from the spec: field checks of `createEventSchema` from the
missing `src/types/event.ts`. The spec constrains `capacity` to a positive
integer and `status` to the lifecycle enumeration; the remaining form fields
have no constraints the claims depend on. Returns the offending field names
(empty means the input validates). -/
def createEventIssues (d : CreateEventData) : List String :=
  (if 0 < d.capacity then [] else ["capacity"]) ++
    (if validStatus d.status then [] else ["status"])

/-- Modelled from the spec: `createEventSchema.partial()` — the same field
checks applied only to the fields present in the update payload. The
validation sees nothing but the form payload: in the source,
`rawData` is built from `formData` alone before any event is read, so no
check can relate `capacity` to the stored `registeredCount`. -/
def updateEventIssues (d : UpdateEventData) : List String :=
  (match d.capacity with
   | some c => if 0 < c then [] else ["capacity"]
   | none => []) ++
    (match d.status with
     | some s => if validStatus s then [] else ["status"]
     | none => [])

/-- `createEventAction` (eventActions.ts lines 74-159): validate, then create
and answer success; on validation failure answer the error state and leave
the store untouched. -/
def createEventAction (events : List Event) (d : CreateEventData)
    (newId now : String) : FormState × List Event :=
  let issues := createEventIssues d
  if issues.isEmpty then
    let created := createEvent events d newId now
    ({ success := true
       message := "Evento creado correctamente"
       data := some created.1 }, created.2)
  else
    ({ success := false
       message := "Por favor, corrige los errores en el formulario"
       errors := issues }, events)

/-- `updateEventAction` (eventActions.ts lines 172-265): validate the present
fields, call `updateEvent`, and report not-found or success. -/
def updateEventAction (events : List Event) (id : String)
    (d : UpdateEventData) (now : String) : FormState × List Event :=
  let issues := updateEventIssues d
  if issues.isEmpty then
    let updated := updateEvent events id d now
    match updated.1 with
    | none =>
      ({ success := false
         message := "No se encontró el evento a actualizar" }, updated.2)
    | some e =>
      ({ success := true
         message := "Evento actualizado correctamente"
         data := some e }, updated.2)
  else
    ({ success := false
       message := "Por favor, corrige los errores en el formulario"
       errors := issues }, events)

/-- `registerForEventAction` (eventActions.ts lines 315-332): call
`registerForEvent`; on `null` answer one fixed failure message (the same for
every cause), otherwise success. -/
def registerForEventAction (events : List Event) (id : String)
    (now : String) : FormState × List Event :=
  let reg := registerForEvent events id now
  match reg.1 with
  | none =>
    ({ success := false
       message := "No se pudo completar el registro. El evento puede estar lleno o no disponible." },
     reg.2)
  | some e =>
    ({ success := true
       message := "¡Te has registrado correctamente!"
       data := some e }, reg.2)

/-! ## Sequential harness for repeated registration calls

JavaScript run-to-completion makes the read-check-write of each
`registerForEvent` call atomic, so any interleaving of N concurrent calls is
some serialization of N whole calls; all N calls here target the same id, so
every serialization is the run below. The timestamp does not influence any
check, so one `now` stands for all calls. Returns
(number of successful calls, number of failed calls, final store). -/
def runRegisterN (id now : String) : Nat → List Event → Nat × Nat × List Event
  | 0, events => (0, 0, events)
  | n + 1, events =>
    let reg := registerForEvent events id now
    let rest := runRegisterN id now n reg.2
    match reg.1 with
    | some _ => (rest.1 + 1, rest.2.1, rest.2.2)
    | none => (rest.1, rest.2.1 + 1, rest.2.2)

/-! ## Lookup lemmas -/

theorem getEventById_some_id {events : List Event} {id : String} {e : Event}
    (h : getEventById events id = some e) : e.id = id := by
  have hfind : List.find? (fun ev => ev.id == id) events = some e := h
  have hp := List.find?_some hfind
  exact eq_of_beq hp

theorem getEventById_cons_pos (e : Event) (rest : List Event) {id : String}
    (h : e.id = id) : getEventById (e :: rest) id = some e := by
  simp [getEventById, List.find?_cons, h]

theorem getEventById_cons_neg {e : Event} {rest : List Event} {id : String}
    (h : e.id ≠ id) : getEventById (e :: rest) id = getEventById rest id := by
  simp [getEventById, List.find?_cons, h]

theorem getEventById_append_cons {pre post : List Event} {b : Event} {id : String}
    (hpre : ∀ x ∈ pre, x.id ≠ id) (hb : b.id = id) :
    getEventById (pre ++ b :: post) id = some b := by
  induction pre with
  | nil => exact getEventById_cons_pos b post hb
  | cons a pre ih =>
    have ha : a.id ≠ id := hpre a (by simp)
    rw [List.cons_append, getEventById_cons_neg ha]
    exact ih (fun x hx => hpre x (by simp [hx]))

/-! ## Behaviour of `registerForEvent` -/

theorem registerForEvent_none_frame {events : List Event} {id now : String}
    (h : (registerForEvent events id now).1 = none) :
    (registerForEvent events id now).2 = events := by
  induction events with
  | nil => rfl
  | cons e rest ih =>
    by_cases hid : e.id = id
    · have hb : (e.id == id) = true := beq_iff_eq.mpr hid
      by_cases hcap : e.registeredCount ≥ e.capacity
      · simp [registerForEvent, hb, hcap]
      · by_cases hst : e.status = "publicado"
        · simp [registerForEvent, hb, hcap, hst] at h
        · simp [registerForEvent, hb, hcap, hst]
    · have hb : (e.id == id) = false := by
        simpa using hid
      simp only [registerForEvent, hb, Bool.false_eq_true, if_false] at h ⊢
      rw [ih h]

theorem registerForEvent_full (now : String) {events : List Event} {id : String}
    {e : Event}
    (hfind : getEventById events id = some e)
    (hcap : e.capacity ≤ e.registeredCount) :
    registerForEvent events id now = (none, events) := by
  induction events with
  | nil => simp [getEventById] at hfind
  | cons a rest ih =>
    by_cases hid : a.id = id
    · have ha : a = e := by
        have := getEventById_cons_pos a rest hid
        rw [this] at hfind
        exact Option.some.inj hfind
      subst ha
      have hb : (a.id == id) = true := beq_iff_eq.mpr hid
      simp [registerForEvent, hb, ge_iff_le, hcap]
    · rw [getEventById_cons_neg hid] at hfind
      have hb : (a.id == id) = false := by simpa using hid
      simp [registerForEvent, hb, ih hfind]

theorem registerForEvent_success (now : String) {events : List Event} {id : String}
    {e : Event}
    (hfind : getEventById events id = some e)
    (hcap : e.registeredCount < e.capacity)
    (hst : e.status = "publicado") :
    ∃ pre post,
      events = pre ++ e :: post ∧ (∀ x ∈ pre, x.id ≠ id) ∧
      registerForEvent events id now =
        (some (bump e now), pre ++ bump e now :: post) := by
  induction events with
  | nil => simp [getEventById] at hfind
  | cons a rest ih =>
    by_cases hid : a.id = id
    · have ha : a = e := by
        have := getEventById_cons_pos a rest hid
        rw [this] at hfind
        exact Option.some.inj hfind
      subst ha
      refine ⟨[], rest, rfl, by simp, ?_⟩
      have hb : (a.id == id) = true := beq_iff_eq.mpr hid
      simp [registerForEvent, hb, not_le.mpr hcap, hst, bump]
    · rw [getEventById_cons_neg hid] at hfind
      obtain ⟨pre, post, hsplit, hpre, hreg⟩ := ih hfind
      have hb : (a.id == id) = false := by simpa using hid
      refine ⟨a :: pre, post, by simp [hsplit], ?_, ?_⟩
      · intro x hx
        rcases List.mem_cons.mp hx with hx | hx
        · simpa [hx] using hid
        · exact hpre x hx
      · simp [registerForEvent, hb, hreg]

/-! ## Behaviour of `updateEvent` -/

theorem updateEvent_found (now : String) {events : List Event} {id : String}
    {e : Event} {d : UpdateEventData}
    (hfind : getEventById events id = some e) :
    ∃ pre post,
      events = pre ++ e :: post ∧ (∀ x ∈ pre, x.id ≠ id) ∧
      updateEvent events id d now =
        (some (applyUpdate e d now), pre ++ applyUpdate e d now :: post) := by
  induction events with
  | nil => simp [getEventById] at hfind
  | cons a rest ih =>
    by_cases hid : a.id = id
    · have ha : a = e := by
        have := getEventById_cons_pos a rest hid
        rw [this] at hfind
        exact Option.some.inj hfind
      subst ha
      have hb : (a.id == id) = true := beq_iff_eq.mpr hid
      exact ⟨[], rest, rfl, by simp, by simp [updateEvent, hb]⟩
    · rw [getEventById_cons_neg hid] at hfind
      obtain ⟨pre, post, hsplit, hpre, hupd⟩ := ih hfind
      have hb : (a.id == id) = false := by simpa using hid
      refine ⟨a :: pre, post, by simp [hsplit], ?_, ?_⟩
      · intro x hx
        rcases List.mem_cons.mp hx with hx | hx
        · simpa [hx] using hid
        · exact hpre x hx
      · simp [updateEvent, hb, hupd]

theorem applyUpdate_id (e : Event) (d : UpdateEventData) (now : String) :
    (applyUpdate e d now).id = e.id := rfl

/-! ## Counting successes over repeated calls -/

theorem runRegisterN_spec (id now : String) :
    ∀ (n : Nat) (events : List Event) (e : Event),
      getEventById events id = some e → e.status = "publicado" →
      e.registeredCount ≤ e.capacity →
      (runRegisterN id now n events).1 =
          min (e.capacity - e.registeredCount).toNat n ∧
      (runRegisterN id now n events).2.1 =
          n - min (e.capacity - e.registeredCount).toNat n ∧
      ∃ e2, getEventById (runRegisterN id now n events).2.2 id = some e2 ∧
        e2.registeredCount = e.registeredCount +
            ((min (e.capacity - e.registeredCount).toNat n : Nat) : Int) ∧
        e2.capacity = e.capacity ∧ e2.status = e.status := by
  intro n
  induction n with
  | zero =>
    intro events e hfind hst hle
    refine ⟨by simp [runRegisterN], by simp [runRegisterN], e, ?_, by simp, rfl, rfl⟩
    simpa [runRegisterN] using hfind
  | succ n ih =>
    intro events e hfind hst hle
    by_cases hlt : e.registeredCount < e.capacity
    · obtain ⟨pre, post, hsplit, hpre, hreg⟩ :=
        registerForEvent_success now hfind hlt hst
      have hbid : (bump e now).id = id := by
        simpa [bump] using getEventById_some_id hfind
      have hfind2 : getEventById (pre ++ bump e now :: post) id = some (bump e now) :=
        getEventById_append_cons hpre hbid
      have hst2 : (bump e now).status = "publicado" := by simpa [bump] using hst
      have hle2 : (bump e now).registeredCount ≤ (bump e now).capacity := by
        simp only [bump]
        omega
      obtain ⟨hs, hf, e2, hfind3, hcount, hcap2, hst3⟩ :=
        ih (pre ++ bump e now :: post) (bump e now) hfind2 hst2 hle2
      have hrun1 : (runRegisterN id now (n + 1) events).1 =
          (runRegisterN id now n (pre ++ bump e now :: post)).1 + 1 := by
        simp [runRegisterN, hreg]
      have hrun2 : (runRegisterN id now (n + 1) events).2.1 =
          (runRegisterN id now n (pre ++ bump e now :: post)).2.1 := by
        simp [runRegisterN, hreg]
      have hrun3 : (runRegisterN id now (n + 1) events).2.2 =
          (runRegisterN id now n (pre ++ bump e now :: post)).2.2 := by
        simp [runRegisterN, hreg]
      have hbr : (bump e now).registeredCount = e.registeredCount + 1 := rfl
      have hbc : (bump e now).capacity = e.capacity := rfl
      rw [hbr, hbc] at hs hf hcount
      rw [hbc] at hcap2
      have hbs : (bump e now).status = e.status := rfl
      rw [hbs] at hst3
      refine ⟨?_, ?_, e2, by rw [hrun3]; exact hfind3, ?_, hcap2, hst3⟩
      · rw [hrun1, hs]; omega
      · rw [hrun2, hf]; omega
      · rw [hcount]; omega
    · have hcap : e.capacity ≤ e.registeredCount := not_lt.mp hlt
      have hreg := registerForEvent_full now hfind hcap
      have hrun1 : (runRegisterN id now (n + 1) events).1 =
          (runRegisterN id now n events).1 := by
        simp [runRegisterN, hreg]
      have hrun2 : (runRegisterN id now (n + 1) events).2.1 =
          (runRegisterN id now n events).2.1 + 1 := by
        simp [runRegisterN, hreg]
      have hrun3 : (runRegisterN id now (n + 1) events).2.2 =
          (runRegisterN id now n events).2.2 := by
        simp [runRegisterN, hreg]
      obtain ⟨hs, hf, e2, hfind3, hcount, hcap2, hst3⟩ := ih events e hfind hst hle
      refine ⟨?_, ?_, e2, by rw [hrun3]; exact hfind3, ?_, hcap2, hst3⟩
      · rw [hrun1, hs]; omega
      · rw [hrun2, hf]; omega
      · rw [hcount]
        have hzero : (e.capacity - e.registeredCount).toNat = 0 := by omega
        rw [hzero]
        omega

/-! ## Invariant preservation -/

theorem registerForEvent_preserves_invariant {events : List Event} {id now : String}
    (h : ∀ e ∈ events, 0 ≤ e.registeredCount ∧ e.registeredCount ≤ e.capacity) :
    ∀ e ∈ (registerForEvent events id now).2,
      0 ≤ e.registeredCount ∧ e.registeredCount ≤ e.capacity := by
  induction events with
  | nil =>
    intro e he
    simp [registerForEvent] at he
  | cons a rest ih =>
    have ha := h a (by simp)
    have hrest : ∀ e ∈ rest, 0 ≤ e.registeredCount ∧ e.registeredCount ≤ e.capacity :=
      fun e he => h e (by simp [he])
    by_cases hid : a.id = id
    · have hb : (a.id == id) = true := beq_iff_eq.mpr hid
      by_cases hcap : a.registeredCount ≥ a.capacity
      · simpa [registerForEvent, hb, hcap] using h
      · by_cases hst : a.status = "publicado"
        · intro e he
          simp only [registerForEvent, hb, if_true, if_neg hcap] at he
          rw [if_neg (by simpa using hst)] at he
          rcases List.mem_cons.mp he with he | he
          · subst he
            constructor
            · simp only []
              omega
            · simp only []
              omega
          · exact hrest e he
        · simpa [registerForEvent, hb, hcap, hst] using h
    · have hb : (a.id == id) = false := by simpa using hid
      intro e he
      simp only [registerForEvent, hb, Bool.false_eq_true, if_false] at he
      rcases List.mem_cons.mp he with he | he
      · subst he; exact ha
      · exact ih hrest e he

/-! ## Concrete sample data for closed checks -/

/-- A small published (Open) event with free capacity. -/
def sampleOpen : Event :=
  { id := "e1"
    title := "Taller de pruebas"
    description := "Evento de ejemplo"
    category := "taller"
    status := "publicado"
    date := "2026-01-10T10:00:00.000Z"
    endDate := none
    location := "Madrid"
    address := "Calle Mayor 1"
    capacity := 2
    registeredCount := 0
    price := 0
    imageUrl := none
    organizerName := "Org"
    organizerEmail := "org@example.com"
    tags := []
    createdAt := "2025-12-01T00:00:00.000Z"
    updatedAt := "2025-12-01T00:00:00.000Z" }

/-- A Draft event (status "borrador") with free capacity. -/
def sampleDraft : Event :=
  { sampleOpen with id := "d1", status := "borrador" }

/-- A published event that is already full. -/
def sampleFull : Event :=
  { sampleOpen with id := "f1", capacity := 5, registeredCount := 5 }

/-- A published event with a single slot. -/
def sampleCap1 : Event :=
  { sampleOpen with capacity := 1 }

/-- A published event holding 5 of 10 slots, for capacity-edit checks. -/
def sampleHalf : Event :=
  { sampleOpen with capacity := 10, registeredCount := 5 }

/-- An update payload that only lowers the capacity to 1. -/
def capDownUpdate : UpdateEventData :=
  { capacity := some 1 }

/-- A creation payload whose status is already "publicado" (Open). -/
def pubCreate : CreateEventData :=
  { title := "Concierto directo"
    description := "Creado ya publicado"
    category := "concierto"
    status := "publicado"
    date := "2026-02-01T20:00:00.000Z"
    endDate := none
    location := "Madrid"
    address := "Gran Via 10"
    capacity := 50
    price := 10
    imageUrl := none
    organizerName := "Org"
    organizerEmail := "org@example.com"
    tags := [] }

/-- A creation payload with status "borrador" (Draft). -/
def draftCreate : CreateEventData :=
  { pubCreate with title := "Borrador", status := "borrador" }

/-! ## Claims -/

/-- C1: starting from any store in which every event satisfies
`0 ≤ registeredCount ≤ capacity`, after any sequential `registerForEvent`
call — whatever its `id` argument and whatever its result — every event in
the store still satisfies the invariant, and `registeredCount` never goes
negative. -/
theorem registerForEvent_invariant (events : List Event) (id now : String)
    (h : ∀ e ∈ events, 0 ≤ e.registeredCount ∧ e.registeredCount ≤ e.capacity) :
    ∀ e ∈ (registerForEvent events id now).2,
      0 ≤ e.registeredCount ∧ e.registeredCount ≤ e.capacity :=
  registerForEvent_preserves_invariant h

/-- Witness for C1 at a concrete store of three events. -/
theorem registerForEvent_invariant_witness :
    (∀ e ∈ ([sampleOpen, sampleDraft, sampleFull] : List Event),
      0 ≤ e.registeredCount ∧ e.registeredCount ≤ e.capacity) ∧
    (∀ e ∈ (registerForEvent [sampleOpen, sampleDraft, sampleFull] "e1" "t1").2,
      0 ≤ e.registeredCount ∧ e.registeredCount ≤ e.capacity) :=
  ⟨by decide, registerForEvent_invariant [sampleOpen, sampleDraft, sampleFull]
    "e1" "t1" (by decide)⟩

/-- C5: for an event with status "publicado" and `registeredCount < capacity`,
a successful `registerForEvent` call replaces exactly the first store entry
with the given id, incrementing its `registeredCount` by one and stamping
`updatedAt` with the current time; every other field of that event and every
other event of the store are unchanged. -/
theorem registerForEvent_success_frame (events : List Event) (id now : String)
    (e : Event)
    (hfind : getEventById events id = some e)
    (hst : e.status = "publicado")
    (hcap : e.registeredCount < e.capacity) :
    ∃ pre post,
      events = pre ++ e :: post ∧
      (∀ x ∈ pre, x.id ≠ id) ∧
      registerForEvent events id now =
        (some { e with registeredCount := e.registeredCount + 1, updatedAt := now },
         pre ++ { e with registeredCount := e.registeredCount + 1, updatedAt := now } :: post) :=
  registerForEvent_success now hfind hcap hst

/-- Witness for C5: concrete two-event store, target in second position. -/
theorem registerForEvent_success_frame_witness :
    (getEventById [sampleDraft, sampleOpen] "e1" = some sampleOpen ∧
      sampleOpen.status = "publicado" ∧
      sampleOpen.registeredCount < sampleOpen.capacity) ∧
    ∃ pre post,
      [sampleDraft, sampleOpen] = pre ++ sampleOpen :: post ∧
      (∀ x ∈ pre, x.id ≠ "e1") ∧
      registerForEvent [sampleDraft, sampleOpen] "e1" "t1" =
        (some { sampleOpen with
                  registeredCount := sampleOpen.registeredCount + 1, updatedAt := "t1" },
         pre ++ { sampleOpen with
                    registeredCount := sampleOpen.registeredCount + 1, updatedAt := "t1" } :: post) :=
  ⟨⟨by decide, by decide, by decide⟩,
    registerForEvent_success_frame [sampleDraft, sampleOpen] "e1" "t1" sampleOpen
      (by decide) (by decide) (by decide)⟩

/-- C6: every rejected `registerForEvent` call is atomic — whenever the call
returns the failure result `null` (unknown id, capacity reached, or status
not "publicado"), the store after the call is exactly the store before it. -/
theorem registerForEvent_failure_atomic (events : List Event) (id now : String)
    (h : (registerForEvent events id now).1 = none) :
    (registerForEvent events id now).2 = events :=
  registerForEvent_none_frame h

/-- Witness for C6: a Draft event rejects and the store is unchanged. -/
theorem registerForEvent_failure_atomic_witness :
    (registerForEvent [sampleDraft, sampleFull] "d1" "t1").1 = none ∧
    (registerForEvent [sampleDraft, sampleFull] "d1" "t1").2 = [sampleDraft, sampleFull] :=
  ⟨by decide, registerForEvent_failure_atomic [sampleDraft, sampleFull] "d1" "t1" (by decide)⟩

/-- C9: reading an event is idempotent — for every id and store,
`getEventById` evaluated twice on the same store gives identical results,
both `null` or both the same event value (the read never mutates the store,
which the embedding records by `getEventById` returning no store at all). -/
theorem getEventById_idempotent (events : List Event) (id : String) :
    (getEventById events id = none ∧ getEventById events id = none) ∨
    ∃ e, getEventById events id = some e ∧ getEventById events id = some e := by
  cases h : getEventById events id with
  | none => exact Or.inl ⟨rfl, rfl⟩
  | some e => exact Or.inr ⟨e, rfl, rfl⟩

/-- C10: `createEvent` stores the new event with `registeredCount = 0` and
`createdAt = updatedAt`; the input type omits `registeredCount`, so no
caller-supplied count can reach the record, and when the input capacity is
positive the fresh event satisfies `0 ≤ registeredCount ≤ capacity`. -/
theorem createEvent_initial_state (events : List Event) (data : CreateEventData)
    (newId now : String) (hcap : 0 < data.capacity) :
    (createEvent events data newId now).1.registeredCount = 0 ∧
    (createEvent events data newId now).1.createdAt =
      (createEvent events data newId now).1.updatedAt ∧
    (createEvent events data newId now).2 =
      events ++ [(createEvent events data newId now).1] ∧
    0 ≤ (createEvent events data newId now).1.registeredCount ∧
    (createEvent events data newId now).1.registeredCount ≤
      (createEvent events data newId now).1.capacity := by
  refine ⟨rfl, rfl, rfl, le_refl 0, ?_⟩
  simpa [createEvent] using le_of_lt hcap

/-- Witness for C10 at a concrete creation input. -/
theorem createEvent_initial_state_witness :
    (0 < draftCreate.capacity) ∧
    ((createEvent [] draftCreate "n1" "t0").1.registeredCount = 0 ∧
      (createEvent [] draftCreate "n1" "t0").1.createdAt =
        (createEvent [] draftCreate "n1" "t0").1.updatedAt ∧
      (createEvent [] draftCreate "n1" "t0").2 =
        [] ++ [(createEvent [] draftCreate "n1" "t0").1] ∧
      0 ≤ (createEvent [] draftCreate "n1" "t0").1.registeredCount ∧
      (createEvent [] draftCreate "n1" "t0").1.registeredCount ≤
        (createEvent [] draftCreate "n1" "t0").1.capacity) :=
  ⟨by decide, createEvent_initial_state [] draftCreate "n1" "t0" (by decide)⟩

/-- C2 counterexample: the claim says the losing calls "fail with Full", but
the code reports every failure as the bare `null` — with one slot taken by
the first of two calls, the second call's result (and the action state built
from it) is literally identical to the failure a Draft event produces, so no
Full reason is carried. -/
theorem register_full_reason_counterexample :
    (registerForEvent (registerForEvent [sampleCap1] "e1" "t1").2 "e1" "t2").1 = none ∧
    (registerForEventAction (registerForEvent [sampleCap1] "e1" "t1").2 "e1" "t2").1 =
      (registerForEventAction [sampleDraft] "d1" "t2").1 := by
  constructor
  · decide
  · decide

/-- C2 amended: with `k = capacity - registeredCount` free slots on a
published event and `k < N`, running the N calls in sequence (every
interleaving of the atomic check-and-increment blocks is such a sequence)
yields exactly k successes and N−k failures — the failures being the code's
bare `null` result rather than a Full-labelled one — the final
`registeredCount` equals `capacity` and never exceeds it, and the successes
account exactly for the total increment. -/
theorem runRegisterN_exactly_k (events : List Event) (e : Event)
    (id now : String) (n : Nat)
    (hfind : getEventById events id = some e)
    (hst : e.status = "publicado")
    (hle : e.registeredCount ≤ e.capacity)
    (hk : (e.capacity - e.registeredCount).toNat < n) :
    (runRegisterN id now n events).1 = (e.capacity - e.registeredCount).toNat ∧
    (runRegisterN id now n events).2.1 = n - (e.capacity - e.registeredCount).toNat ∧
    ∃ e2, getEventById (runRegisterN id now n events).2.2 id = some e2 ∧
      e2.registeredCount = e.capacity ∧
      e2.registeredCount ≤ e2.capacity ∧
      e2.registeredCount - e.registeredCount =
        (((runRegisterN id now n events).1 : Nat) : Int) := by
  obtain ⟨hs, hf, e2, hfind2, hcount, hcap2, hst2⟩ :=
    runRegisterN_spec id now n events e hfind hst hle
  have hmin : min (e.capacity - e.registeredCount).toNat n =
      (e.capacity - e.registeredCount).toNat := by omega
  rw [hmin] at hs hf hcount
  refine ⟨hs, hf, e2, hfind2, ?_, ?_, ?_⟩
  · rw [hcount]; omega
  · rw [hcount, hcap2]; omega
  · rw [hcount, hs]; omega

/-- Witness for the amended C2: capacity 2, zero taken, three calls — two
succeed, one fails, the event ends exactly full. -/
theorem runRegisterN_exactly_k_witness :
    (getEventById [sampleOpen] "e1" = some sampleOpen ∧
      sampleOpen.status = "publicado" ∧
      sampleOpen.registeredCount ≤ sampleOpen.capacity ∧
      (sampleOpen.capacity - sampleOpen.registeredCount).toNat < 3) ∧
    ((runRegisterN "e1" "t1" 3 [sampleOpen]).1 =
        (sampleOpen.capacity - sampleOpen.registeredCount).toNat ∧
      (runRegisterN "e1" "t1" 3 [sampleOpen]).2.1 =
        3 - (sampleOpen.capacity - sampleOpen.registeredCount).toNat ∧
      ∃ e2, getEventById (runRegisterN "e1" "t1" 3 [sampleOpen]).2.2 "e1" = some e2 ∧
        e2.registeredCount = sampleOpen.capacity ∧
        e2.registeredCount ≤ e2.capacity ∧
        e2.registeredCount - sampleOpen.registeredCount =
          (((runRegisterN "e1" "t1" 3 [sampleOpen]).1 : Nat) : Int)) :=
  ⟨⟨by decide, by decide, by decide, by decide⟩,
    runRegisterN_exactly_k [sampleOpen] sampleOpen "e1" "t1" 3
      (by decide) (by decide) (by decide) (by decide)⟩

/-- C3 counterexample: the three rejection causes are not distinguishable.
An unknown id, a full published event and a Draft event all make
`registerForEventAction` return literally the same `FormState` (the data
layer returns the same bare `null`), so the caller cannot tell NotFound,
NotOpen and Full apart. -/
theorem register_reasons_counterexample :
    (registerForEventAction [] "missing" "t").1 =
      (registerForEventAction [sampleDraft] "d1" "t").1 ∧
    (registerForEventAction [sampleFull] "f1" "t").1 =
      (registerForEventAction [sampleDraft] "d1" "t").1 ∧
    (registerForEventAction [sampleDraft] "d1" "t").1.success = false := by
  refine ⟨?_, ?_, ?_⟩ <;> decide

/-- C3 amended: a failed registration is reported, but without a cause —
every call to `registerForEventAction` answers either the fixed success state
or one fixed failure state whose message does not depend on whether the id
was unknown, the event not published, or the event full; only success versus
failure is distinguishable. -/
theorem registerForEventAction_single_failure (events : List Event)
    (id now : String) :
    (registerForEventAction events id now).1.success = true ∨
    (registerForEventAction events id now).1 =
      { success := false
        message := "No se pudo completar el registro. El evento puede estar lleno o no disponible."
        data := none
        errors := [] } := by
  rcases hr : (registerForEvent events id now).1 with _ | e
  · exact Or.inr (by simp [registerForEventAction, hr])
  · exact Or.inl (by simp [registerForEventAction, hr])

/-- C4 counterexample: `updateEventAction` accepts a capacity edit below the
current `registeredCount` — the event holding 5 of 10 slots updated to
capacity 1 reports success, and the stored event then violates
`registeredCount ≤ capacity`. -/
theorem updateEvent_capacity_counterexample :
    (updateEventAction [sampleHalf] "e1" capDownUpdate "t2").1.success = true ∧
    getEventById (updateEventAction [sampleHalf] "e1" capDownUpdate "t2").2 "e1" =
      some { sampleHalf with capacity := 1, updatedAt := "t2" } ∧
    ¬ (({ sampleHalf with capacity := 1, updatedAt := "t2" } : Event).registeredCount ≤
        ({ sampleHalf with capacity := 1, updatedAt := "t2" } : Event).capacity) := by
  refine ⟨?_, ?_, ?_⟩ <;> decide

/-- C4 amended: capacity may be edited after creation, but the code enforces
only the field-local validation (a positive integer): a successful
`updateEventAction` stores exactly the requested capacity and keeps the
registered count, with no comparison against `registeredCount`, so
`registeredCount ≤ capacity` can be broken by a successful update. -/
theorem updateEventAction_capacity_unchecked (events : List Event)
    (id now : String) (e : Event) (d : UpdateEventData) (c : Int)
    (hfind : getEventById events id = some e)
    (hcap : d.capacity = some c)
    (hreg : d.registeredCount = none)
    (hissues : updateEventIssues d = []) :
    (updateEventAction events id d now).1.success = true ∧
    ∃ e2, getEventById (updateEventAction events id d now).2 id = some e2 ∧
      e2.capacity = c ∧
      e2.registeredCount = e.registeredCount := by
  obtain ⟨pre, post, hsplit, hpre, hupd⟩ :=
    updateEvent_found (d := d) now hfind
  have hid : (applyUpdate e d now).id = id := by
    rw [applyUpdate_id]
    exact getEventById_some_id hfind
  have hfind2 : getEventById (pre ++ applyUpdate e d now :: post) id =
      some (applyUpdate e d now) :=
    getEventById_append_cons hpre hid
  have hact : updateEventAction events id d now =
      ({ success := true
         message := "Evento actualizado correctamente"
         data := some (applyUpdate e d now) },
       pre ++ applyUpdate e d now :: post) := by
    simp [updateEventAction, hissues, hupd]
  rw [hact]
  refine ⟨rfl, applyUpdate e d now, hfind2, ?_, ?_⟩
  · simp [applyUpdate, hcap]
  · simp [applyUpdate, hreg]

/-- Witness for the amended C4: the concrete capacity edit to 1 below a
registered count of 5 is stored as requested. -/
theorem updateEventAction_capacity_unchecked_witness :
    (getEventById [sampleHalf] "e1" = some sampleHalf ∧
      capDownUpdate.capacity = some 1 ∧
      capDownUpdate.registeredCount = none ∧
      updateEventIssues capDownUpdate = []) ∧
    ((updateEventAction [sampleHalf] "e1" capDownUpdate "t2").1.success = true ∧
      ∃ e2, getEventById (updateEventAction [sampleHalf] "e1" capDownUpdate "t2").2 "e1" =
          some e2 ∧
        e2.capacity = 1 ∧
        e2.registeredCount = sampleHalf.registeredCount) :=
  ⟨⟨by decide, by decide, by decide, by decide⟩,
    updateEventAction_capacity_unchecked [sampleHalf] "e1" "t2" sampleHalf
      capDownUpdate 1 (by decide) (by decide) (by decide) (by decide)⟩

/-- C7 counterexample: the claim says a conflicting attempt is retried and
then reported as Contention, but the code runs the read-modify-write once and
has no Contention result at all — after a first call commits the only slot,
the conflicting second call answers the very same generic failure state an
unknown id produces. -/
theorem contention_retry_counterexample :
    (registerForEventAction [sampleCap1] "e1" "t1").1.success = true ∧
    (registerForEventAction (registerForEventAction [sampleCap1] "e1" "t1").2 "e1" "t2").1 =
      (registerForEventAction [] "missing" "t2").1 := by
  constructor
  · decide
  · decide

/-- C7 amended: there is no retry and no Contention reason — an attempt that
lost its slot to a previously committed registration fails in a single pass
with the one fixed generic failure message, leaving the store exactly as the
winning call left it. -/
theorem conflicting_attempt_single_failure (events : List Event)
    (id now1 now2 : String) (e : Event)
    (hfind : getEventById events id = some e)
    (hst : e.status = "publicado")
    (hone : e.registeredCount + 1 = e.capacity) :
    (registerForEventAction events id now1).1.success = true ∧
    (registerForEventAction (registerForEventAction events id now1).2 id now2).1 =
      { success := false
        message := "No se pudo completar el registro. El evento puede estar lleno o no disponible."
        data := none
        errors := [] } ∧
    (registerForEventAction (registerForEventAction events id now1).2 id now2).2 =
      (registerForEventAction events id now1).2 := by
  have hcap : e.registeredCount < e.capacity := by omega
  obtain ⟨pre, post, hsplit, hpre, hreg⟩ :=
    registerForEvent_success now1 hfind hcap hst
  have hact1 : registerForEventAction events id now1 =
      ({ success := true
         message := "¡Te has registrado correctamente!"
         data := some (bump e now1) },
       pre ++ bump e now1 :: post) := by
    simp [registerForEventAction, hreg]
  have hbid : (bump e now1).id = id := by
    simpa [bump] using getEventById_some_id hfind
  have hfind2 : getEventById (pre ++ bump e now1 :: post) id = some (bump e now1) :=
    getEventById_append_cons hpre hbid
  have hfull : (bump e now1).capacity ≤ (bump e now1).registeredCount := by
    simp only [bump]
    omega
  have hreg2 : registerForEvent (pre ++ bump e now1 :: post) id now2 =
      (none, pre ++ bump e now1 :: post) :=
    registerForEvent_full now2 hfind2 hfull
  have hact2 : registerForEventAction (pre ++ bump e now1 :: post) id now2 =
      ({ success := false
         message := "No se pudo completar el registro. El evento puede estar lleno o no disponible."
         data := none
         errors := [] },
       pre ++ bump e now1 :: post) := by
    simp [registerForEventAction, hreg2]
  rw [hact1]
  exact ⟨rfl, by rw [hact2], by rw [hact2]⟩

/-- Witness for the amended C7: a two-call race on a single-slot event, the
loser getting the generic single-shot failure. -/
theorem conflicting_attempt_single_failure_witness :
    (getEventById [sampleCap1] "e1" = some sampleCap1 ∧
      sampleCap1.status = "publicado" ∧
      sampleCap1.registeredCount + 1 = sampleCap1.capacity) ∧
    ((registerForEventAction [sampleCap1] "e1" "t1").1.success = true ∧
      (registerForEventAction (registerForEventAction [sampleCap1] "e1" "t1").2 "e1" "t2").1 =
        { success := false
          message := "No se pudo completar el registro. El evento puede estar lleno o no disponible."
          data := none
          errors := [] } ∧
      (registerForEventAction (registerForEventAction [sampleCap1] "e1" "t1").2 "e1" "t2").2 =
        (registerForEventAction [sampleCap1] "e1" "t1").2) :=
  ⟨⟨by decide, by decide, by decide⟩,
    conflicting_attempt_single_failure [sampleCap1] "e1" "t1" "t2" sampleCap1
      (by decide) (by decide) (by decide)⟩

/-- C8 counterexample: a creation input whose status is "publicado" passes
validation, is stored as-is, and the fresh event is Open — not Draft — with
no later transition involved; the creation form even preselects "publicado". -/
theorem create_draft_counterexample :
    createEventIssues pubCreate = [] ∧
    (createEventAction [] pubCreate "n1" "t0").1.success = true ∧
    getEventById (createEventAction [] pubCreate "n1" "t0").2 "n1" =
      some (createEvent [] pubCreate "n1" "t0").1 ∧
    (createEvent [] pubCreate "n1" "t0").1.status = "publicado" ∧
    (createEvent [] pubCreate "n1" "t0").1.status ≠ "borrador" := by
  refine ⟨?_, ?_, ?_, ?_, ?_⟩ <;> decide

/-- C8 amended: a created event starts in whatever lifecycle state the
creation input carries — `createEvent` copies the supplied status verbatim
(the form defaults it to "publicado"), so Draft is only one of the possible
initial states, not a forced one. -/
theorem createEventAction_stores_given_status (events : List Event)
    (d : CreateEventData) (newId now : String)
    (hvalid : createEventIssues d = []) :
    (createEventAction events d newId now).1.success = true ∧
    ∃ e, (createEventAction events d newId now).1.data = some e ∧
      e.status = d.status ∧
      (createEventAction events d newId now).2 = events ++ [e] := by
  have hif : (createEventIssues d).isEmpty = true := by rw [hvalid]; rfl
  have hact : createEventAction events d newId now =
      ({ success := true
         message := "Evento creado correctamente"
         data := some (createEvent events d newId now).1 },
       (createEvent events d newId now).2) := by
    simp [createEventAction, hif]
  rw [hact]
  exact ⟨rfl, (createEvent events d newId now).1, rfl, rfl, rfl⟩

/-- Witness for the amended C8: the "publicado" creation input is stored
with status "publicado". -/
theorem createEventAction_stores_given_status_witness :
    (createEventIssues pubCreate = []) ∧
    ((createEventAction [] pubCreate "n2" "t0").1.success = true ∧
      ∃ e, (createEventAction [] pubCreate "n2" "t0").1.data = some e ∧
        e.status = pubCreate.status ∧
        (createEventAction [] pubCreate "n2" "t0").2 = [] ++ [e]) :=
  ⟨by decide, createEventAction_stores_given_status [] pubCreate "n2" "t0" (by decide)⟩

end EventPass
